import Mathlib

/-!
Verification development for the add-on ingress reverse proxy
(`supervisor/api/ingress.py`).  The Python source is shallowly embedded:
header multidicts become association lists of (name, value) strings with
case-insensitive name matching (modelling aiohttp's `istr`/`CIMultiDict`),
byte bodies become `List Nat`, and the request handler becomes a pure
function that also returns the list of routing/backend events it performs.
-/

namespace Ingress

/-- ASCII lower-casing of one character (header names are ASCII). -/
def lowerChar (c : Char) : Char :=
  if 65 ≤ c.toNat ∧ c.toNat ≤ 90 then Char.ofNat (c.toNat + 32) else c

/-- ASCII lower-casing of a header name, modelling the case folding done by
`istr` (Python `str.lower` restricted to ASCII header names). -/
def lower (s : String) : String := ⟨s.data.map lowerChar⟩

/-- Case-insensitive equality of header names, modelling `istr` comparison
in `multidict`/`aiohttp.hdrs`. -/
def keyEq (a b : String) : Bool := lower a == lower b

/-- Python `dict` assignment `d[k] = v` over an association list: if a key
equal to `k` (case-insensitively, since the keys written by `_init_header`
are `istr`) is present, its value is replaced in place (a `dict` holds at
most one entry per key); otherwise the pair is appended, matching `dict`
insertion order. -/
def dictInsert : List (String × String) → String → String → List (String × String)
  | [], k, v => [(k, v)]
  | p :: t, k, v => if keyEq p.1 k then (p.1, v) :: t else p :: dictInsert t k v

/-- Case-insensitive lookup, modelling `CIMultiDict.get` / `istr`-keyed
`dict` lookup: the first entry whose name matches is returned. -/
def dictGet (d : List (String × String)) (k : String) : Option String :=
  (d.find? (fun p => keyEq p.1 k)).map (fun p => p.2)

/-- Exact-key lookup, modelling `request.cookies.get` (cookie names are
plain case-sensitive strings). -/
def getExact (d : List (String × String)) (k : String) : Option String :=
  (d.find? (fun p => p.1 == k)).map (fun p => p.2)

/-- Modelled from the spec: the ingress session cookie name
(`COOKIE_INGRESS` lives in `api/const.py`, which is not part of the given
source); the spec only says the session credential is carried in a cookie. -/
def COOKIE_INGRESS : String := "ingress_session"

/-- Modelled from the spec: the proxy's current session/auth token header
name (`HEADER_TOKEN` lives in `api/const.py`, not in the given source). -/
def HEADER_TOKEN : String := "X-Supervisor-Token"

/-- Modelled from the spec: the proxy's legacy session/auth token header
name (`HEADER_TOKEN_OLD` lives in `api/const.py`, not in the given source). -/
def HEADER_TOKEN_OLD : String := "X-Hassio-Key"

/-- Lower-cased names of the headers skipped by the request-direction
filter in `_init_header`: `hdrs.CONTENT_LENGTH`, `hdrs.CONTENT_ENCODING`,
`hdrs.TRANSFER_ENCODING`, the four `Sec-WebSocket-*` negotiation headers,
and the two proxy token headers. -/
def filtered_request_headers : List String :=
  ["content-length", "content-encoding", "transfer-encoding",
   "sec-websocket-extensions", "sec-websocket-protocol",
   "sec-websocket-version", "sec-websocket-key",
   lower HEADER_TOKEN, lower HEADER_TOKEN_OLD]

/-- Membership of a header name in the filter tuple of `_init_header`;
`istr` membership is case-insensitive. -/
def filteredName (n : String) : Bool := filtered_request_headers.contains (lower n)

/-- Backend add-on record: the fields of `Addon` that the ingress code
reads (`ip_address`, `ingress_port`, `ingress_stream`). -/
structure Addon where
  ip_address : String
  ingress_port : Nat
  ingress_stream : Bool
deriving DecidableEq, Repr

/-- Inbound request: the parts of `aiohttp.web.Request` that the ingress
handler reads.  `peer` is the client peer address string obtained from
`request.transport.get_extra_info("peername")[0]` after the `ip_address`
round-trip (parse and re-format, the identity on canonical addresses);
`body` is the full client body in bytes (`await request.read()` returns
exactly these bytes, `request.content` streams them). -/
structure Request where
  method : String
  cookies : List (String × String)
  token : Option String
  path : String
  query_string : String
  headers : List (String × String)
  body : List Nat
  peer : String
deriving DecidableEq, Repr

/-- Python `str` formatting of an optional string inside an f-string:
`None` prints as the literal text "None". -/
def pyFormatOpt : Option String → String
  | none => "None"
  | some s => s

/-- Fold of the header-copy loop of `_init_header`: each non-filtered
(name, value) pair is written into the `headers` dict in order. -/
def headerFold (d : List (String × String)) (hs : List (String × String)) :
    List (String × String) :=
  hs.foldl (fun acc p => if filteredName p.1 then acc else dictInsert acc p.1 p.2) d

/-- Embedding of `_init_header(request, addon)`: copy all request headers
except the filtered names into a fresh dict, then set `X-Forwarded-For` to
the f-string `f"{forward_for}, {connected_ip}"` where `forward_for` is the
prior header value or Python `None`. -/
def init_header (request : Request) (_addon : Addon) : List (String × String) :=
  let headers := headerFold [] request.headers
  let forward_for := dictGet request.headers "X-Forwarded-For"
  dictInsert headers "X-Forwarded-For"
    (pyFormatOpt forward_for ++ ", " ++ request.peer)

/-- Embedding of `_create_url(addon, path)`. -/
def create_url (addon : Addon) (path : String) : String :=
  "http://" ++ addon.ip_address ++ ":" ++ toString addon.ingress_port ++ "/" ++ path

/-- Embedding of `_extract_addon`: look the path token up in the ingress
registry (`self.sys_ingress.get(token)`); `none` models the raised
`HTTPServiceUnavailable`. -/
def extract_addon (registry : String → Option Addon) (request : Request) : Option Addon :=
  request.token.bind registry

/-- Observable routing/backend events of one `handler` run, used to state
that nothing is resolved or contacted on the rejection paths. -/
inductive IngressEvent
  | tokenResolution (token : Option String)
  | backendContact (url : String)
deriving DecidableEq, Repr

/-- Predicate picking out backend-contact events. -/
def IngressEvent.isBackendContact : IngressEvent → Bool
  | .backendContact _ => true
  | _ => false

/-- Terminal outcome of one `handler` run.  `proxied` abstracts both the
HTTP branch (`_handle_request`) and the WebSocket branch
(`_handle_websocket`); both contact the backend at `_create_url`, which the
event trace records. -/
inductive HandlerOutcome
  | unauthorized
  | serviceUnavailable
  | proxied (addon : Addon)
deriving DecidableEq, Repr

/-- Embedding of `handler`: read the session cookie, ask the session store
to validate it (`validate_session` is the external session store, passed as
a function), raise `HTTPUnauthorized` if invalid; then `_extract_addon`
(raising `HTTPServiceUnavailable` on unknown token); then hand off to the
proxy branch, recorded as a backend-contact event. -/
def handler (validate_session : Option String → Bool)
    (registry : String → Option Addon) (request : Request) :
    HandlerOutcome × List IngressEvent :=
  let session := getExact request.cookies COOKIE_INGRESS
  if validate_session session = false then
    (.unauthorized, [])
  else
    match extract_addon registry request with
    | none => (.serviceUnavailable, [.tokenResolution request.token])
    | some addon =>
        (.proxied addon,
         [.tokenResolution request.token,
          .backendContact (create_url addon request.path)])

/-- Numeric value of one ASCII digit character, `none` otherwise. -/
def digitVal? (c : Char) : Option Nat :=
  if 48 ≤ c.toNat ∧ c.toNat ≤ 57 then some (c.toNat - 48) else none

/-- Decimal value of a digit string, `none` if empty or non-digit. -/
def digitsVal? (cs : List Char) : Option Nat :=
  if cs = [] then none
  else
    cs.foldl
      (fun acc c =>
        match acc, digitVal? c with
        | some a, some d => some (10 * a + d)
        | _, _ => none)
      (some 0)

/-- Python `int(...)` on a header value string: an optional sign followed
by at least one decimal digit; `none` models the raised `ValueError` on any
other input. -/
def pyInt (s : String) : Option Int :=
  match s.data with
  | '-' :: cs => (digitsVal? cs).map (fun v => -(v : Int))
  | '+' :: cs => (digitsVal? cs).map (fun v => (v : Int))
  | cs => (digitsVal? cs).map (fun v => (v : Int))

/-- Delivery mode of the proxied response: one fully buffered body
(`web.Response(body=...)`) or a streamed body written chunk by chunk
(`web.StreamResponse` fed from `result.content.iter_chunked(4096)`). -/
inductive Delivery
  | buffered (body : List Nat)
  | streamed (chunks : List (List Nat))
deriving DecidableEq, Repr

/-- Embedding of `aiohttp`'s `iter_chunked(n)`: split the remaining body
into successive chunks of at most `n` bytes. -/
def iter_chunked (n : Nat) (l : List Nat) : List (List Nat) :=
  if _hn : n = 0 then []
  else if _hl : l = [] then []
  else l.take n :: iter_chunked n (l.drop n)
termination_by l.length
decreasing_by
  simp only [List.length_drop]
  exact Nat.sub_lt (List.length_pos.mpr _hl) (Nat.pos_of_ne_zero _hn)

/-- Embedding of the response-delivery decision in `_handle_request`:
if `hdrs.CONTENT_LENGTH` is among the backend response headers and
`int(...)` of its value is `< 4_194_000`, read the whole body and return a
buffered `web.Response`; otherwise stream the body in 4096-byte chunks.
`none` models the `ValueError` escaping when the declared value is not an
integer. -/
def handle_request_delivery (respHeaders : List (String × String))
    (respBody : List Nat) : Option Delivery :=
  match dictGet respHeaders "Content-Length" with
  | none => some (.streamed (iter_chunked 4096 respBody))
  | some v =>
    match pyInt v with
    | none => none
    | some k =>
      if k < 4194000 then some (.buffered respBody)
      else some (.streamed (iter_chunked 4096 respBody))

/-- Outbound request body as handed to `sys_websession.request`: either the
live stream `request.content` (whose byte sequence is the client body) or
the buffered bytes of `await request.read()`. -/
inductive BodyData
  | stream (content : List Nat)
  | buffered (bytes : List Nat)
deriving DecidableEq, Repr

/-- Embedding of the `data = request.content if ... else await
request.read()` decision in `_handle_request`. -/
def ingress_request_data (request : Request) (addon : Addon) : BodyData :=
  if request.method == "POST" && addon.ingress_stream then
    .stream request.body
  else
    .buffered request.body

/-- Frame types of `aiohttp.WSMsgType` that the forwarding loop can see. -/
inductive WSMsgType
  | TEXT
  | BINARY
  | PING
  | PONG
  | CLOSE
  | CLOSING
  | ERROR
deriving DecidableEq, Repr

/-- One inbound WebSocket message (`aiohttp.WSMessage`): its type, its
payload bytes (`msg.data`), and its `msg.extra` field (for a close frame,
the textual close reason). -/
structure WSMessage where
  type : WSMsgType
  data : List Nat
  extra : String
deriving DecidableEq, Repr

/-- Destination-connection state read by the forwarding loop: `ws_to.closed`
and `ws_to.close_code`.  The loop body itself never changes this state (it
only changes through the peer or the concurrent opposite task), so it is an
explicit parameter of the embedded loop. -/
structure WSPeer where
  closed : Bool
  close_code : Option Nat
deriving DecidableEq, Repr

/-- One outbound action of the forwarding loop on the destination:
`send_str`, `send_bytes`, a ping or pong issued by the relay itself, or a
close frame with a code and textual reason. -/
inductive WSSend
  | send_str (data : List Nat)
  | send_bytes (data : List Nat)
  | ping
  | pong
  | close (code : Option Nat) (message : String)
deriving DecidableEq, Repr

/-- Embedding of the body of the `async for` loop of `_websocket_forward`:
the if/elif chain on `msg.type`, with the final `elif ws_to.closed` branch
sending a close frame carrying the destination's own close code and the
incoming message's `extra` as reason. -/
def websocket_forward_step (ws_to : WSPeer) (msg : WSMessage) : List WSSend :=
  if msg.type = .TEXT then [.send_str msg.data]
  else if msg.type = .BINARY then [.send_bytes msg.data]
  else if msg.type = .PING then [.ping]
  else if msg.type = .PONG then [.pong]
  else if ws_to.closed then [.close ws_to.close_code msg.extra]
  else []

/-- Embedding of `_websocket_forward(ws_from, ws_to)`: the actions sent to
the destination for the sequence of messages yielded by the source, in
order. -/
def websocket_forward (ws_to : WSPeer) (msgs : List WSMessage) : List WSSend :=
  msgs.flatMap (websocket_forward_step ws_to)

/-- Concrete add-on fixture used by witnesses. -/
def addonA : Addon :=
  { ip_address := "172.30.33.5", ingress_port := 8099, ingress_stream := false }

/-- Concrete request fixture with no prior `X-Forwarded-For` header. -/
def reqNoForward : Request :=
  { method := "GET", cookies := [], token := some "a0d7b954_demo", path := "index.html",
    query_string := "", headers := [("Host", "hassio.local")], body := [],
    peer := "10.0.0.5" }

/-- Concrete request fixture with a prior `X-Forwarded-For` value. -/
def reqWithForward : Request :=
  { reqNoForward with headers := [("X-Forwarded-For", "1.2.3.4")] }

/-- Concrete request fixture with a duplicated header name. -/
def reqDup : Request :=
  { reqNoForward with
    headers := [("X-A", "1"), ("X-A", "2"), ("Content-Length", "5"), ("X-Custom", "v")] }

/-- Concrete request fixture with a duplicated `X-Forwarded-For` header. -/
def reqDupForward : Request :=
  { reqNoForward with
    headers := [("X-Forwarded-For", "1.2.3.4"), ("X-Forwarded-For", "5.6.7.8")] }

/-- Concrete POST request fixture. -/
def reqPost : Request := { reqNoForward with method := "POST", body := [7, 8, 9] }

/-- Concrete stream-capable add-on fixture. -/
def addonStream : Addon := { addonA with ingress_stream := true }

theorem keyEq_iff (a b : String) : keyEq a b = true ↔ lower a = lower b := by
  simp [keyEq]

theorem keyEq_false_iff (a b : String) : keyEq a b = false ↔ lower a ≠ lower b := by
  simp [keyEq]

theorem dictGet_cons (p : String × String) (t : List (String × String)) (m : String) :
    dictGet (p :: t) m = if keyEq p.1 m then some p.2 else dictGet t m := by
  by_cases h : keyEq p.1 m = true <;> simp [dictGet, List.find?, h]

theorem dictGet_dictInsert_eq (d : List (String × String)) (k v m : String)
    (hkm : keyEq k m = true) : dictGet (dictInsert d k v) m = some v := by
  induction d with
  | nil => simp [dictInsert, dictGet_cons, hkm]
  | cons p t ih =>
    rw [dictInsert]
    cases hp : keyEq p.1 k with
    | true =>
      have hpm : keyEq p.1 m = true := by
        rw [keyEq_iff] at hp hkm ⊢
        exact hp.trans hkm
      simp [dictGet_cons, hpm]
    | false =>
      have hpm : keyEq p.1 m = false := by
        rw [keyEq_false_iff]
        rw [keyEq_iff] at hkm
        rw [keyEq_false_iff] at hp
        intro hc
        exact hp (hc.trans hkm.symm)
      simp [dictGet_cons, hpm, ih]

theorem dictGet_dictInsert_ne (d : List (String × String)) (k v m : String)
    (hkm : keyEq k m = false) : dictGet (dictInsert d k v) m = dictGet d m := by
  induction d with
  | nil => simp [dictInsert, dictGet_cons, hkm]
  | cons p t ih =>
    rw [dictInsert]
    cases hp : keyEq p.1 k with
    | true =>
      have hpm : keyEq p.1 m = false := by
        rw [keyEq_false_iff] at hkm ⊢
        rw [keyEq_iff] at hp
        rw [hp]
        exact hkm
      simp [dictGet_cons, hpm]
    | false =>
      cases hm : keyEq p.1 m <;> simp [dictGet_cons, hm, ih]

theorem headerFold_cons (d : List (String × String)) (q : String × String)
    (t : List (String × String)) :
    headerFold d (q :: t) =
      headerFold (if filteredName q.1 then d else dictInsert d q.1 q.2) t := rfl

/-- C1: request-direction forwarded-for chain, evaluated at the claim's own
example inputs.  With no prior `X-Forwarded-For` header and peer `10.0.0.5`
the code emits `"None, 10.0.0.5"` — the Python f-string
`f"{forward_for}, {connected_ip}"` formats the absent prior value as the
literal text `None` — not `"10.0.0.5"` as the claim states.  With prior
value `"1.2.3.4"` it emits `"1.2.3.4, 10.0.0.5"` as claimed. -/
theorem C1_forwarded_for_eval :
    dictGet (init_header reqNoForward addonA) "X-Forwarded-For" =
      some "None, 10.0.0.5" ∧
    dictGet (init_header reqWithForward addonA) "X-Forwarded-For" =
      some "1.2.3.4, 10.0.0.5" :=
  ⟨by decide, by decide⟩

/-- C2: whenever the session store rejects (or the cookie is absent, so the
store is asked about `none`), the handler returns Unauthorized with an
empty event trace: no token resolution and no backend contact happen. -/
theorem C2_unauthorized_no_backend (validate_session : Option String → Bool)
    (registry : String → Option Addon) (request : Request)
    (h : validate_session (getExact request.cookies COOKIE_INGRESS) = false) :
    handler validate_session registry request = (HandlerOutcome.unauthorized, []) := by
  simp [handler, h]

theorem C2_witness :
    (fun _ => false : Option String → Bool)
        (getExact reqNoForward.cookies COOKIE_INGRESS) = false ∧
    handler (fun _ => false) (fun _ => none) reqNoForward =
      (HandlerOutcome.unauthorized, []) :=
  ⟨rfl, C2_unauthorized_no_backend (fun _ => false) (fun _ => none) reqNoForward rfl⟩

/-- C3: for an authorized request whose token is unknown to the registry,
the handler returns ServiceUnavailable and its event trace contains no
backend contact. -/
theorem C3_unknown_token_no_backend (validate_session : Option String → Bool)
    (registry : String → Option Addon) (request : Request)
    (h1 : validate_session (getExact request.cookies COOKIE_INGRESS) = true)
    (h2 : extract_addon registry request = none) :
    (handler validate_session registry request).1 = HandlerOutcome.serviceUnavailable ∧
    ∀ e ∈ (handler validate_session registry request).2, e.isBackendContact = false := by
  simp [handler, h1, h2, IngressEvent.isBackendContact]

theorem C3_witness :
    (fun _ => true : Option String → Bool)
        (getExact reqNoForward.cookies COOKIE_INGRESS) = true ∧
    extract_addon (fun _ => none) reqNoForward = none ∧
    ((handler (fun _ => true) (fun _ => none) reqNoForward).1 =
        HandlerOutcome.serviceUnavailable ∧
      ∀ e ∈ (handler (fun _ => true) (fun _ => none) reqNoForward).2,
        e.isBackendContact = false) :=
  ⟨rfl, rfl, C3_unknown_token_no_backend (fun _ => true) (fun _ => none) reqNoForward rfl rfl⟩

/-- C6: the client body is passed to the backend as the live stream exactly
when the method is POST and the add-on is marked stream-capable; in every
other case the fully read bytes, identical to the client body, are sent. -/
theorem C6_body_stream_iff (request : Request) (addon : Addon) :
    ((∃ s, ingress_request_data request addon = BodyData.stream s) ↔
      request.method = "POST" ∧ addon.ingress_stream = true) ∧
    (¬(request.method = "POST" ∧ addon.ingress_stream = true) →
      ingress_request_data request addon = BodyData.buffered request.body) ∧
    (request.method = "POST" ∧ addon.ingress_stream = true →
      ingress_request_data request addon = BodyData.stream request.body) := by
  unfold ingress_request_data
  by_cases hm : request.method = "POST" <;>
    by_cases hs : addon.ingress_stream = true <;>
      simp [hm, hs]

theorem C6_witness :
    ingress_request_data reqNoForward addonA = BodyData.buffered reqNoForward.body ∧
    ingress_request_data reqPost addonStream = BodyData.stream reqPost.body :=
  ⟨(C6_body_stream_iff reqNoForward addonA).2.1 (by decide),
   (C6_body_stream_iff reqPost addonStream).2.2 ⟨by decide, by decide⟩⟩

/-- C10: in the forwarding loop, a close frame from the source leads to a
close being sent to the destination — carrying the destination's own close
code and the incoming frame's `extra` payload as the reason — exactly when
the destination is already closed; when the destination is still open,
nothing at all is sent for that frame. -/
theorem C10_close_only_when_dest_closed (ws_to : WSPeer) (msg : WSMessage)
    (h : msg.type = WSMsgType.CLOSE) :
    websocket_forward_step ws_to msg =
      if ws_to.closed then [WSSend.close ws_to.close_code msg.extra] else [] := by
  simp [websocket_forward_step, h]

theorem C10_witness :
    websocket_forward_step ⟨true, some 1001⟩ ⟨WSMsgType.CLOSE, [], "bye"⟩ =
      [WSSend.close (some 1001) "bye"] ∧
    websocket_forward_step ⟨false, none⟩ ⟨WSMsgType.CLOSE, [], "bye"⟩ = [] :=
  ⟨(C10_close_only_when_dest_closed ⟨true, some 1001⟩ ⟨WSMsgType.CLOSE, [], "bye"⟩ rfl).trans
      (by decide),
   (C10_close_only_when_dest_closed ⟨false, none⟩ ⟨WSMsgType.CLOSE, [], "bye"⟩ rfl).trans
      (by decide)⟩

theorem keyEq_refl (a : String) : keyEq a a = true := by
  simp [keyEq]

theorem keyEq_symm {a b : String} (h : keyEq a b = true) : keyEq b a = true := by
  rw [keyEq_iff] at h ⊢
  exact h.symm

theorem keyEq_symm_false {a b : String} (h : keyEq a b = false) : keyEq b a = false := by
  rw [keyEq_false_iff] at h ⊢
  exact fun hc => h hc.symm

theorem filteredName_eq_false_iff (n : String) :
    filteredName n = false ↔ lower n ∉ filtered_request_headers := by
  simp [filteredName]

/-- Values carried by a given header name (case-insensitively) in an
inbound header list, in order of appearance. -/
def valuesOf (hs : List (String × String)) (n : String) : List String :=
  (hs.filter (fun p => keyEq p.1 n)).map (fun p => p.2)

/-- Last element of a list of values, with a fallback; `lastVal l fb` is
the last value written into a dict key whose earlier content was `fb`. -/
def lastVal : List String → Option String → Option String
  | [], fb => fb
  | v :: t, _ => lastVal t (some v)

theorem lastVal_some (l : List String) (v : String) :
    ∃ w, lastVal l (some v) = some w := by
  induction l generalizing v with
  | nil => exact ⟨v, rfl⟩
  | cons a t ih => exact ih a

theorem valuesOf_ne_nil {hs : List (String × String)} {p : String × String}
    (hp : p ∈ hs) : valuesOf hs p.1 ≠ [] := by
  intro h
  have hmem : p ∈ hs.filter (fun q => keyEq q.1 p.1) :=
    List.mem_filter.mpr ⟨hp, keyEq_refl p.1⟩
  unfold valuesOf at h
  rw [List.map_eq_nil_iff] at h
  rw [h] at hmem
  exact absurd hmem (List.not_mem_nil p)

theorem dictGet_headerFold (n : String) (h1 : filteredName n = false) :
    ∀ (hs d : List (String × String)),
      dictGet (headerFold d hs) n = lastVal (valuesOf hs n) (dictGet d n) := by
  intro hs
  induction hs with
  | nil => intro d; rfl
  | cons q t ih =>
    intro d
    rw [headerFold_cons]
    cases hq : keyEq q.1 n with
    | true =>
      have hqf : filteredName q.1 = false := by
        have hl : lower q.1 = lower n := (keyEq_iff _ _).mp hq
        unfold filteredName at h1 ⊢
        rw [hl]
        exact h1
      rw [if_neg (by simp [hqf])]
      have hv : valuesOf (q :: t) n = q.2 :: valuesOf t n := by
        simp [valuesOf, List.filter_cons, hq]
      rw [ih, dictGet_dictInsert_eq d q.1 q.2 n hq, hv]
      rfl
    | false =>
      have hv : valuesOf (q :: t) n = valuesOf t n := by
        simp [valuesOf, List.filter_cons, hq]
      cases hqf : filteredName q.1 with
      | true => rw [if_pos rfl, ih, hv]
      | false =>
        rw [if_neg (by simp), ih, hv, dictGet_dictInsert_ne d q.1 q.2 n hq]

theorem dictInsert_fst_prop {P : String → Prop} {d : List (String × String)} {k v : String}
    (hd : ∀ p ∈ d, P p.1) (hk : P k) : ∀ p ∈ dictInsert d k v, P p.1 := by
  induction d with
  | nil =>
    intro p hp
    rw [dictInsert] at hp
    have : p = (k, v) := List.mem_singleton.mp hp
    rw [this]
    exact hk
  | cons q t ih =>
    intro p hp
    rw [dictInsert] at hp
    by_cases hq : keyEq q.1 k = true
    · rw [if_pos hq] at hp
      rcases List.mem_cons.mp hp with h | h
      · rw [h]
        exact hd q (List.mem_cons_self q t)
      · exact hd p (List.mem_cons_of_mem q h)
    · rw [if_neg hq] at hp
      rcases List.mem_cons.mp hp with h | h
      · rw [h]
        exact hd q (List.mem_cons_self q t)
      · exact ih (fun x hx => hd x (List.mem_cons_of_mem q hx)) p h

theorem headerFold_fst_prop {P : String → Prop}
    (hP : ∀ n, filteredName n = false → P n) :
    ∀ (hs d : List (String × String)), (∀ p ∈ d, P p.1) →
      ∀ p ∈ headerFold d hs, P p.1 := by
  intro hs
  induction hs with
  | nil => intro d hd; exact hd
  | cons q t ih =>
    intro d hd
    rw [headerFold_cons]
    cases hq : filteredName q.1 with
    | true =>
      rw [if_pos rfl]
      exact ih d hd
    | false =>
      rw [if_neg (by simp)]
      exact ih (dictInsert d q.1 q.2) (dictInsert_fst_prop hd (hP q.1 hq))

/-- C4: the outbound request header set built by `_init_header` contains
none of the filtered names — content-length, content-encoding,
transfer-encoding, the four WebSocket negotiation headers, and the two
proxy session-token headers — and every other inbound header name is still
present (case-insensitively) in the outbound set. -/
theorem C4_request_header_filter (request : Request) (addon : Addon) :
    (∀ p ∈ init_header request addon, lower p.1 ∉ filtered_request_headers) ∧
    (∀ p ∈ request.headers, lower p.1 ∉ filtered_request_headers →
      ∃ w, dictGet (init_header request addon) p.1 = some w) := by
  have hform : init_header request addon =
      dictInsert (headerFold [] request.headers) "X-Forwarded-For"
        (pyFormatOpt (dictGet request.headers "X-Forwarded-For") ++ ", " ++
          request.peer) := rfl
  constructor
  · intro p hp
    rw [hform] at hp
    refine dictInsert_fst_prop
      (P := fun m => lower m ∉ filtered_request_headers) ?_ (by decide) p hp
    exact headerFold_fst_prop
      (fun m hm => (filteredName_eq_false_iff m).mp hm) request.headers []
      (fun x hx => absurd hx (List.not_mem_nil x))
  · intro p hp hpf
    cases hx : keyEq p.1 "X-Forwarded-For" with
    | true =>
      refine ⟨pyFormatOpt (dictGet request.headers "X-Forwarded-For") ++ ", " ++
        request.peer, ?_⟩
      rw [hform]
      exact dictGet_dictInsert_eq _ _ _ _ (keyEq_symm hx)
    | false =>
      rw [hform, dictGet_dictInsert_ne _ _ _ _ (keyEq_symm_false hx),
        dictGet_headerFold p.1 ((filteredName_eq_false_iff p.1).mpr hpf)
          request.headers []]
      obtain ⟨a, t2, hat⟩ := List.exists_cons_of_ne_nil (valuesOf_ne_nil hp)
      rw [hat]
      exact lastVal_some t2 a

theorem C4_witness :
    lower ("Host", "hassio.local").1 ∉ filtered_request_headers ∧
    (∃ w, dictGet (init_header reqNoForward addonA) ("Host", "hassio.local").1 =
      some w) :=
  ⟨(C4_request_header_filter reqNoForward addonA).1 ("Host", "hassio.local")
      (by decide),
   (C4_request_header_filter reqNoForward addonA).2 ("Host", "hassio.local")
      (by decide) (by decide)⟩

/-- C9: counterexample — the outbound dict does not preserve duplicate
header values.  In `reqDup` the name `X-A` carries the two inbound values
`"1"` and `"2"`, but the outbound set retains a single `X-A` entry and the
value `"1"` is gone. -/
theorem C9_counterexample :
    ("X-A", "1") ∈ reqDup.headers ∧
    ("X-A", "1") ∉ init_header reqDup addonA ∧
    ((init_header reqDup addonA).filter (fun p => keyEq p.1 "X-A")).length = 1 :=
  ⟨by decide, by decide, by decide⟩

/-- C9 (amended): for every non-filtered header name, the outbound set
keeps exactly one entry for that name.  For any name other than the
forwarded-for header the entry holds the last inbound value written under
that name — duplicates collapse, last value wins.  For the forwarded-for
header itself the entry holds the chain rebuilt at the end of
`_init_header`: the first inbound value (`CIMultiDict.get` returns the
first value under a duplicated name) with the peer address appended. -/
theorem C9_last_value_wins (request : Request) (addon : Addon) (n : String)
    (h1 : filteredName n = false) :
    (keyEq n "X-Forwarded-For" = false →
      dictGet (init_header request addon) n =
        lastVal (valuesOf request.headers n) none) ∧
    (keyEq n "X-Forwarded-For" = true →
      dictGet (init_header request addon) n =
        some (pyFormatOpt (dictGet request.headers "X-Forwarded-For") ++ ", " ++
          request.peer)) := by
  have hform : init_header request addon =
      dictInsert (headerFold [] request.headers) "X-Forwarded-For"
        (pyFormatOpt (dictGet request.headers "X-Forwarded-For") ++ ", " ++
          request.peer) := rfl
  constructor
  · intro h2
    rw [hform, dictGet_dictInsert_ne _ _ _ _ (keyEq_symm_false h2),
      dictGet_headerFold n h1 request.headers []]
    rfl
  · intro h2
    rw [hform]
    exact dictGet_dictInsert_eq _ _ _ _ (keyEq_symm h2)

theorem C9_witness :
    dictGet (init_header reqDup addonA) "X-A" =
      lastVal (valuesOf reqDup.headers "X-A") none ∧
    dictGet (init_header reqDupForward addonA) "X-Forwarded-For" =
      some (pyFormatOpt (dictGet reqDupForward.headers "X-Forwarded-For") ++ ", " ++
        reqDupForward.peer) :=
  ⟨(C9_last_value_wins reqDup addonA "X-A" (by decide)).1 (by decide),
   (C9_last_value_wins reqDupForward addonA "X-Forwarded-For" (by decide)).2
     (by decide)⟩

/-- C7: for any sequence of text, binary, ping and pong frames read from
the source connection, the forwarding loop sends exactly one action per
frame to the destination, in the order received: a text frame as a text
send with identical payload, a binary frame as a binary send with identical
payload, a ping as a ping issued by the relay itself, and a pong as a
pong. -/
theorem C7_frame_translation (ws_to : WSPeer) (msgs : List WSMessage)
    (h : ∀ m ∈ msgs, m.type = WSMsgType.TEXT ∨ m.type = WSMsgType.BINARY ∨
        m.type = WSMsgType.PING ∨ m.type = WSMsgType.PONG) :
    websocket_forward ws_to msgs = msgs.map (fun m =>
      if m.type = WSMsgType.TEXT then WSSend.send_str m.data
      else if m.type = WSMsgType.BINARY then WSSend.send_bytes m.data
      else if m.type = WSMsgType.PING then WSSend.ping
      else WSSend.pong) := by
  induction msgs with
  | nil => rfl
  | cons m t ih =>
    have hm := h m (List.mem_cons_self m t)
    have ht : ∀ x ∈ t, x.type = WSMsgType.TEXT ∨ x.type = WSMsgType.BINARY ∨
        x.type = WSMsgType.PING ∨ x.type = WSMsgType.PONG :=
      fun x hx => h x (List.mem_cons_of_mem m hx)
    have hstep : websocket_forward_step ws_to m =
        [if m.type = WSMsgType.TEXT then WSSend.send_str m.data
         else if m.type = WSMsgType.BINARY then WSSend.send_bytes m.data
         else if m.type = WSMsgType.PING then WSSend.ping
         else WSSend.pong] := by
      rcases hm with h1 | h1 | h1 | h1 <;> simp [websocket_forward_step, h1]
    rw [List.map_cons]
    show websocket_forward_step ws_to m ++ websocket_forward ws_to t = _
    rw [hstep, ih ht]
    rfl

theorem C7_witness :
    (∀ m ∈ ([⟨WSMsgType.TEXT, [104, 105], ""⟩, ⟨WSMsgType.BINARY, [0, 255], ""⟩,
        ⟨WSMsgType.PING, [], ""⟩, ⟨WSMsgType.PONG, [], ""⟩] : List WSMessage),
      m.type = WSMsgType.TEXT ∨ m.type = WSMsgType.BINARY ∨
        m.type = WSMsgType.PING ∨ m.type = WSMsgType.PONG) ∧
    websocket_forward ⟨false, none⟩
        [⟨WSMsgType.TEXT, [104, 105], ""⟩, ⟨WSMsgType.BINARY, [0, 255], ""⟩,
         ⟨WSMsgType.PING, [], ""⟩, ⟨WSMsgType.PONG, [], ""⟩] =
      [WSSend.send_str [104, 105], WSSend.send_bytes [0, 255],
       WSSend.ping, WSSend.pong] :=
  ⟨by decide,
   (C7_frame_translation ⟨false, none⟩
      [⟨WSMsgType.TEXT, [104, 105], ""⟩, ⟨WSMsgType.BINARY, [0, 255], ""⟩,
       ⟨WSMsgType.PING, [], ""⟩, ⟨WSMsgType.PONG, [], ""⟩] (by decide)).trans
     (by decide)⟩

theorem iter_chunked_flatten (n : Nat) (hn : n ≠ 0) (l : List Nat) :
    (iter_chunked n l).flatten = l := by
  have H : ∀ (fuel : Nat) (l2 : List Nat), l2.length ≤ fuel →
      (iter_chunked n l2).flatten = l2 := by
    intro fuel
    induction fuel with
    | zero =>
      intro l2 hl
      have hnil : l2 = [] := List.length_eq_zero.mp (Nat.le_zero.mp hl)
      subst hnil
      rw [iter_chunked]
      simp [hn]
    | succ fuel ih =>
      intro l2 hl
      rw [iter_chunked, dif_neg hn]
      by_cases hl0 : l2 = []
      · rw [dif_pos hl0]
        simp [hl0]
      · rw [dif_neg hl0, List.flatten_cons]
        have hfuel : (l2.drop n).length ≤ fuel := by
          rw [List.length_drop]
          have hlen : 0 < l2.length := List.length_pos.mpr hl0
          omega
        rw [ih (l2.drop n) hfuel]
        exact List.take_append_drop n l2
  exact H l.length l le_rfl

theorem iter_chunked_length_le (n : Nat) (l : List Nat) :
    ∀ c ∈ iter_chunked n l, c.length ≤ n := by
  have H : ∀ (fuel : Nat) (l2 : List Nat), l2.length ≤ fuel →
      ∀ c ∈ iter_chunked n l2, c.length ≤ n := by
    intro fuel
    induction fuel with
    | zero =>
      intro l2 hl c hc
      have hnil : l2 = [] := List.length_eq_zero.mp (Nat.le_zero.mp hl)
      subst hnil
      rw [iter_chunked] at hc
      by_cases hn : n = 0
      · rw [dif_pos hn] at hc
        exact absurd hc (List.not_mem_nil c)
      · rw [dif_neg hn, dif_pos rfl] at hc
        exact absurd hc (List.not_mem_nil c)
    | succ fuel ih =>
      intro l2 hl c hc
      rw [iter_chunked] at hc
      by_cases hn : n = 0
      · rw [dif_pos hn] at hc
        exact absurd hc (List.not_mem_nil c)
      · rw [dif_neg hn] at hc
        by_cases hl0 : l2 = []
        · rw [dif_pos hl0] at hc
          exact absurd hc (List.not_mem_nil c)
        · rw [dif_neg hl0] at hc
          rcases List.mem_cons.mp hc with h | h
          · rw [h, List.length_take]
            exact Nat.min_le_left _ _
          · have hfuel : (l2.drop n).length ≤ fuel := by
              rw [List.length_drop]
              have hlen : 0 < l2.length := List.length_pos.mpr hl0
              omega
            exact ih (l2.drop n) hfuel c h
  exact H l.length l le_rfl

/-- C5: the delivery decision of `_handle_request` — if the backend
response declares a content-length whose integer value is strictly below
4,194,000 the whole body is returned as one buffered response; if the
declared value is at or above the threshold, or no content-length is
declared, the body is streamed in chunks of at most 4096 bytes whose
concatenation is the backend body byte for byte. -/
theorem C5_response_delivery (respHeaders : List (String × String))
    (respBody : List Nat) :
    (∀ v k, dictGet respHeaders "Content-Length" = some v → pyInt v = some k →
      k < 4194000 →
      handle_request_delivery respHeaders respBody =
        some (Delivery.buffered respBody)) ∧
    (∀ v k, dictGet respHeaders "Content-Length" = some v → pyInt v = some k →
      4194000 ≤ k →
      handle_request_delivery respHeaders respBody =
        some (Delivery.streamed (iter_chunked 4096 respBody)) ∧
      (iter_chunked 4096 respBody).flatten = respBody ∧
      ∀ c ∈ iter_chunked 4096 respBody, c.length ≤ 4096) ∧
    (dictGet respHeaders "Content-Length" = none →
      handle_request_delivery respHeaders respBody =
        some (Delivery.streamed (iter_chunked 4096 respBody)) ∧
      (iter_chunked 4096 respBody).flatten = respBody ∧
      ∀ c ∈ iter_chunked 4096 respBody, c.length ≤ 4096) := by
  refine ⟨?_, ?_, ?_⟩
  · intro v k hv hk hlt
    simp [handle_request_delivery, hv, hk, hlt]
  · intro v k hv hk hge
    have hnlt : ¬k < 4194000 := not_lt.mpr hge
    exact ⟨by simp [handle_request_delivery, hv, hk, hnlt],
      iter_chunked_flatten 4096 (by decide) respBody,
      iter_chunked_length_le 4096 respBody⟩
  · intro hv
    exact ⟨by simp [handle_request_delivery, hv],
      iter_chunked_flatten 4096 (by decide) respBody,
      iter_chunked_length_le 4096 respBody⟩

theorem C5_witness :
    handle_request_delivery [("Content-Length", "1000")] [1, 2, 3] =
      some (Delivery.buffered [1, 2, 3]) ∧
    (handle_request_delivery [("Content-Length", "5000000")] [1, 2, 3] =
        some (Delivery.streamed (iter_chunked 4096 [1, 2, 3])) ∧
      (iter_chunked 4096 [1, 2, 3]).flatten = [1, 2, 3] ∧
      ∀ c ∈ iter_chunked 4096 [1, 2, 3], c.length ≤ 4096) ∧
    (handle_request_delivery [] [1, 2, 3] =
        some (Delivery.streamed (iter_chunked 4096 [1, 2, 3])) ∧
      (iter_chunked 4096 [1, 2, 3]).flatten = [1, 2, 3] ∧
      ∀ c ∈ iter_chunked 4096 [1, 2, 3], c.length ≤ 4096) :=
  ⟨(C5_response_delivery [("Content-Length", "1000")] [1, 2, 3]).1 "1000" 1000
      (by decide) (by decide) (by decide),
   (C5_response_delivery [("Content-Length", "5000000")] [1, 2, 3]).2.1 "5000000"
      5000000 (by decide) (by decide) (by decide),
   (C5_response_delivery [] [1, 2, 3]).2.2 rfl⟩

end Ingress
